import Mathlib

/-!
# Verification of the news merge / normalization / enrichment pipeline

Shallow embedding of `src/main.py`: a scraper that collects Yahoo!-news
records per keyword, merges them against a previously persisted Excel
archive (URL-deduplicated, history first), classifies unlabeled rows via
an external service, and writes the result back out.

Modelling conventions:
* pandas cells are `Option String`, where `none` plays the role of pandas
  `NaN` (a missing cell) and `some s` a string cell.  In a `NewsRecord`
  the three cells whose missingness the code consults keep it: `url`
  (`dropna(subset=["URL"])` at line 486), and `sentiment`/`category`
  (the selection mask `df["ポジネガ"] == ""` at line 417 is `False` on a
  `NaN` cell, so a missing label cell and the empty string behave
  differently).  The remaining fields are never compared against
  anything, so a `NaN` cell is folded to `""` there.
* a DataFrame whose index matters is a `List (Nat × NewsRecord)` of
  (row label, row) pairs.  The merged frame of `main` has the labels
  produced by `pd.concat(..., ignore_index=True)` followed by `dropna` /
  `drop_duplicates` — the surviving concatenation positions, which are
  strictly increasing but gappy — and `classify_with_gemini` writes into
  it with the *label-based* `df.loc[...]`, including pandas setting-with-
  enlargement when the label is absent.
* `unicodedata.normalize("NFKC", ·)` composed with `jaconv.z2h(·,
  kana=True, digit=True, ascii=True)` is modelled as a character-wise
  fold (`foldWidthChar`): the full-width ASCII block U+FF01–U+FF5E maps
  to ASCII (this is exactly NFKC there), the ideographic space U+3000
  maps to a space, a representative set of katakana maps to its
  half-width form, and every other character is left unchanged.  All
  inputs exercised by the theorems below are fixed by both the real
  functions and the model.
* the regular expression of `normalize_title_for_dup` is embedded with
  the semantics Python's `re` actually gives to the pattern the source
  builds.  The source assembles the pattern from *raw* string literals
  containing doubled backslashes, so e.g. `\\s` is an escaped backslash
  followed by a literal `s`, not a whitespace class, and the first
  bracketed group is closed early by `\\]`, leaving `{}<>]` as literal
  trailing characters of that alternative.  The resulting branches are
  spelled out at `stripCore` below.
-/

namespace NewsPipeline

/-! ## NormalizationEngine (`to_hankaku_kana_ascii_digit`, `normalize_title_for_dup`) -/

/-- Representative katakana half-widthing table for `jaconv.z2h(kana=True)`:
full-width katakana to half-width, voiced forms to base + voiced mark. -/
def kanaTable : List (Char × List Char) :=
  [(Char.ofNat 0x30A2, [Char.ofNat 0xFF71]),   -- ア → ｱ
   (Char.ofNat 0x30AB, [Char.ofNat 0xFF76]),   -- カ → ｶ
   (Char.ofNat 0x30AC, [Char.ofNat 0xFF76, Char.ofNat 0xFF9E]),  -- ガ → ｶﾞ
   (Char.ofNat 0x30CA, [Char.ofNat 0xFF85]),   -- ナ → ﾅ
   (Char.ofNat 0x30FC, [Char.ofNat 0xFF70]),   -- ー → ｰ
   (Char.ofNat 0x3002, [Char.ofNat 0xFF61]),   -- 。 → ｡
   (Char.ofNat 0x3001, [Char.ofNat 0xFF64])]   -- 、 → ､

/-- One character of `NFKC` + `jaconv.z2h`: full-width ASCII variants
(U+FF01–U+FF5E) fold to ASCII, the ideographic space folds to a space,
katakana half-widthens by `kanaTable`, everything else is unchanged. -/
def foldWidthChar (c : Char) : List Char :=
  let n := c.toNat
  if 0xFF01 ≤ n ∧ n ≤ 0xFF5E then [Char.ofNat (n - 0xFEE0)]
  else if n = 0x3000 then [Char.ofNat 0x20]
  else match kanaTable.lookup c with
       | some l => l
       | none => [c]

/-- `to_hankaku_kana_ascii_digit` (src/main.py lines 65-80): empty text
returns immediately; otherwise NFKC followed by `jaconv.z2h`. -/
def to_hankaku_kana_ascii_digit (s : String) : String :=
  if s = "" then "" else String.mk ((s.data.map foldWidthChar).flatten)

/-- First character class actually denoted by the source pattern
`r'[\\s"\'\\u201C\\u201D\\u2018\\u2019\\(\\)[\\]{}<>]'`: the class is
closed by the `]` of `\\]`, so its members are the literal characters
backslash, `s`, the two quote characters, `u`, the digits `2 0 1 8 9`,
`C`, `D`, and the three brackets `( ) [`. -/
def class1Chars : List Char :=
  [Char.ofNat 92, 's', Char.ofNat 34, Char.ofNat 39, 'u',
   '2', '0', '1', 'C', 'D', '8', '9', '(', ')', '[']

/-- Second alternative `r'|[、。・,…:;!?！？／/\\\\|＋+＊*.,]'`: Japanese
punctuation, some ASCII punctuation, and (from `\\\\`) the backslash. -/
def class2Chars : List Char :=
  ['、', '。', '・', ',', '…', ':', ';', '!', '?', '！', '？', '／', '/',
   Char.ofNat 92, '|', '＋', '+', '＊', '*', '.']

/-- Third alternative `r'|[＜＞「」『』《》〔〕［］｛｝（）]'`: full-width
brackets (【】 deliberately absent). -/
def class3Chars : List Char :=
  ['＜', '＞', '「', '」', '『', '』', '《', '》', '〔', '〕', '［', '］',
   '｛', '｝', '（', '）']

/-- Fourth alternative `r'|[' + dash_chars + r']'` with
`dash_chars = r'\\-\\u2212\\u2010…\\uFF70'`: `\\-\\` is the one-character
range backslash–backslash, after which only the literal characters of the
`\\uXXXX` spellings remain: `u`, the digits `2 1 0 3 4 5 7`, `F`, `D`,
`C`.  No actual dash or long-sound character is in the class. -/
def class4Chars : List Char :=
  [Char.ofNat 92, 'u', '2', '1', '0', '3', '4', '5', 'F', 'D', 'C', '7']

/-- A character matched by one of the single-character alternatives. -/
def inSingleClass (c : Char) : Bool :=
  class2Chars.contains c || class3Chars.contains c || class4Chars.contains c

/-- The literal tail `{}<>]` that the first alternative requires after its
character class (the class having been closed early by `\\]`). -/
def brace1Tail : List Char :=
  [Char.ofNat 123, Char.ofNat 125, '<', '>', ']']

/-- Left-to-right, leftmost-match scan of `re.sub(pattern, "", ·)`: at each
position try the first alternative (class-1 character followed by the
literal five characters `{}<>]`, removing six characters), then the
single-character alternatives, else keep the character.  The `fuel`
argument only drives structural recursion; `fuel = l.length` always
suffices because every step consumes at least one character. -/
def stripCore : Nat → List Char → List Char
  | 0, l => l
  | _ + 1, [] => []
  | fuel + 1, c :: rest =>
    if class1Chars.contains c && rest.take 5 == brace1Tail then
      stripCore fuel (rest.drop 5)
    else if inSingleClass c then
      stripCore fuel rest
    else
      c :: stripCore fuel rest

/-- `re.sub(pattern, "", s)` for the pattern built at src/main.py 98-104. -/
def stripSymbols (l : List Char) : List Char :=
  stripCore l.length l

/-- `normalize_title_for_dup` (src/main.py lines 83-107): empty text short
circuits; otherwise width-fold then symbol removal. -/
def normalize_title_for_dup (s : String) : String :=
  if s = "" then ""
  else String.mk (stripSymbols (to_hankaku_kana_ascii_digit s).data)

/-- Python's `str.strip()`: leading and trailing whitespace removed.
(Defined structurally on the character list so that it evaluates in the
kernel; `String.trim` does not.) -/
def pyStrip (s : String) : String :=
  String.mk (((s.data.dropWhile Char.isWhitespace).reverse.dropWhile
    Char.isWhitespace).reverse)

/-! ## Data model -/

/-- One row of a keyword's sheet.  Field order matches the fixed column
order タイトル, URL, 投稿日, 引用元, 取得日時, 検索キーワード, ポジネガ,
カテゴリ, 重複確認用タイトル.  `url`, `sentiment` and `category` keep
cell missingness (`none` = `NaN`): the code distinguishes a `NaN` URL
(`dropna`) and a `NaN` label cell (`== ""` is `False` on `NaN`, so such
a row is never re-selected for classification). -/
structure NewsRecord where
  title : String
  url : Option String
  publishedAt : String
  source : String
  fetchedAt : String
  keyword : String
  sentiment : Option String
  category : Option String
  dedupTitle : String
deriving DecidableEq, Repr

instance : Inhabited NewsRecord :=
  ⟨{ title := "", url := none, publishedAt := "", source := "", fetchedAt := "",
     keyword := "", sentiment := none, category := none, dedupTitle := "" }⟩

/-! ## Extractor output (`scrape_yahoo`, src/main.py lines 144-225) -/

/-- The raw tuple a scraped search hit yields before row construction. -/
structure ScrapeItem where
  title : String
  url : String
  pubDate : String
  source : String
  fetchedAt : String
  keyword : String
deriving DecidableEq, Repr

/-- Row construction of src/main.py lines 207-221: source falls back to
"Yahoo", ポジネガ and カテゴリ start as the actual empty string (these
rows are built in memory, so the cells are `""`, not `NaN`),
重複確認用タイトル is the normalized title. -/
def mkScrapedRecord (it : ScrapeItem) : NewsRecord :=
  { title := it.title
    url := some it.url
    publishedAt := it.pubDate
    source := if it.source = "" then "Yahoo" else it.source
    fetchedAt := it.fetchedAt
    keyword := it.keyword
    sentiment := some ""
    category := some ""
    dedupTitle := normalize_title_for_dup it.title }

/-- `scrape_yahoo`'s row loop keeps a hit only `if title and url`. -/
def scrapeRecords (items : List ScrapeItem) : List NewsRecord :=
  (items.filter (fun it => it.title ≠ "" && it.url ≠ "")).map mkScrapedRecord

/-! ## MergeEngine (src/main.py lines 480-488) -/

/-- `drop_duplicates(subset=["URL"], keep="first")`, with the URL values
already seen threaded through. -/
def dedupSeeded (seen : List (Option String)) : List NewsRecord → List NewsRecord
  | [] => []
  | r :: rs =>
    if r.url ∈ seen then dedupSeeded seen rs
    else r :: dedupSeeded (r.url :: seen) rs

/-- The per-keyword merge of `main` (src/main.py lines 484-487):
`pd.concat([df_old, df_new])`, then `dropna(subset=["URL"])` (a `NaN`
URL cell is `none` here), then `drop_duplicates(subset=["URL"],
keep="first")`; no re-sorting.  (The guard `if not df_all.empty` skips
the two calls on an empty concatenation, which they fix anyway.) -/
def mergeRecords (df_old df_new : List NewsRecord) : List NewsRecord :=
  dedupSeeded [] ((df_old ++ df_new).filter (fun r => r.url.isSome))

/-- Modelled from the spec (§4.3), historical block: the `old` records
with an empty (missing) url dropped, deduplicated by url keeping the
first occurrence, in their original relative order. -/
def mergeSpecHist (old : List NewsRecord) : List NewsRecord :=
  dedupSeeded [] (old.filter (fun r => r.url.isSome))

/-- Modelled from the spec (§4.3), appended block: records newly
introduced by `new`, in collection order, after removing any that
duplicate a url already present in the historical block. -/
def mergeSpecNew (old new : List NewsRecord) : List NewsRecord :=
  dedupSeeded ((mergeSpecHist old).map (fun r => r.url))
    (new.filter (fun r => r.url.isSome))

/-- Modelled from the spec (§4.3): historical block first, newly
introduced records appended afterwards. -/
def mergeSpec (old new : List NewsRecord) : List NewsRecord :=
  mergeSpecHist old ++ mergeSpecNew old new

/-- `drop_duplicates(subset=["URL"], keep="first")` on a labelled frame:
rows keep their labels, the key is still the URL cell. -/
def dedupSeededL (seen : List (Option String)) :
    List (Nat × NewsRecord) → List (Nat × NewsRecord)
  | [] => []
  | r :: rs =>
    if r.2.url ∈ seen then dedupSeededL seen rs
    else r :: dedupSeededL (r.2.url :: seen) rs

/-- The merged frame of `main` together with its pandas index:
`pd.concat([df_old, df_new], ignore_index=True)` gives rows labelled by
their concatenation position, and `dropna` / `drop_duplicates` keep the
surviving rows' labels (no reset), leaving a strictly increasing but
generally gappy integer index. -/
def mergeLabeled (old new : List NewsRecord) : List (Nat × NewsRecord) :=
  dedupSeededL [] ((old ++ new).enum.filter (fun p => p.2.url.isSome))

/-! ## ArchiveStore (`download_existing_book`, src/main.py lines 229-294) -/

/-- The fixed sheet list of src/main.py lines 33-42. -/
def SHEET_NAMES : List String :=
  ["ホンダ", "トヨタ", "マツダ", "スバル", "ダイハツ", "スズキ", "三菱自動車", "日産"]

/-- `empty_cols` of src/main.py line 235: the nine expected columns. -/
def empty_cols : List String :=
  ["タイトル", "URL", "投稿日", "引用元", "取得日時", "検索キーワード",
   "ポジネガ", "カテゴリ", "重複確認用タイトル"]

/-- A sheet as `pd.read_excel(..., dtype=str)` yields it: named columns and
rows of cells, a cell being `none` when the spreadsheet cell was empty
(pandas `NaN`). -/
structure RawSheet where
  cols : List String
  rows : List (List (Option String))
deriving DecidableEq, Repr

/-- Index of the first occurrence of column `c`, i.e. pandas
`c in df.columns` plus positional lookup. -/
def firstIdx (c : String) : List String → Option Nat
  | [] => none
  | c2 :: tl => if c2 = c then some 0 else (firstIdx c tl).map (· + 1)

/-- The per-row effect of src/main.py lines 289-292: every expected column
absent from the sheet is backfilled with the *string* `""` (`df[col] = ""`),
then the row is re-indexed to exactly `empty_cols` (`df[empty_cols]`),
silently dropping any other column. -/
def reindexRow (cols : List String) (row : List (Option String)) : List (Option String) :=
  empty_cols.map (fun c =>
    match firstIdx c cols with
    | some i => (row[i]?).getD none
    | none => some "")

/-- Packing the nine re-indexed cells into a record: the URL and the two
label cells keep their missingness (the code consults it), other missing
cells are folded to `""`. -/
def recordOfCells (cells : List (Option String)) : NewsRecord :=
  { title := ((cells[0]?).getD none).getD ""
    url := (cells[1]?).getD none
    publishedAt := ((cells[2]?).getD none).getD ""
    source := ((cells[3]?).getD none).getD ""
    fetchedAt := ((cells[4]?).getD none).getD ""
    keyword := ((cells[5]?).getD none).getD ""
    sentiment := (cells[6]?).getD none
    category := (cells[7]?).getD none
    dedupTitle := ((cells[8]?).getD none).getD "" }

/-- Loading one retrieved sheet (src/main.py lines 285-292). -/
def loadSheet (raw : RawSheet) : List NewsRecord :=
  raw.rows.map (fun row => recordOfCells (reindexRow raw.cols row))

/-- Appending one extra column (used to state that extra columns of an
older persisted layout are dropped by the re-indexing). -/
def appendCol (raw : RawSheet) (name : String) (vals : List (Option String)) : RawSheet :=
  { cols := raw.cols ++ [name]
    rows := (raw.rows.zip vals).map (fun p => p.1 ++ [p.2]) }

/-- A Python exception escaping `download_existing_book` uncaught. -/
inductive PyError where
  | requestsError
  | jsonError
deriving DecidableEq, Repr

/-- Outcome of the remote interaction of `download_existing_book`, one
constructor per distinct control path of src/main.py lines 248-294.  The
two `requests.get` calls (lines 250 and 269) and the `r.json()` call
(line 255) sit outside any try/except, so a transport-level failure or a
non-JSON release body *raises*; the handled paths are: the release
lookup returning a non-200 status, the asset missing from the release,
the asset lacking a download url, the download returning a non-200
status, the Excel bytes failing to parse (the only try/except, lines
276-282), and a successfully parsed workbook. -/
inductive ArchiveWorld where
  | releaseRequestRaises
  | releaseFetchFailed
  | releaseJsonRaises
  | assetNotFound
  | missingDownloadUrl
  | downloadRequestRaises
  | downloadFailed
  | excelParseFailed
  | loaded (book : List (String × RawSheet))
deriving DecidableEq

/-- `download_existing_book` (src/main.py lines 229-294): starts from an
all-empty book over `SHEET_NAMES`; returns it unchanged when repo or tag
is unset (`if not (repo and tag)`) or on any *handled* failed remote
step; propagates the exception (`Except.error`) when either
`requests.get` or `r.json()` raises, since no handler encloses them; on
a parsed workbook, re-indexes each sheet present in the book. -/
def download_existing_book (repo tag : String) (w : ArchiveWorld) :
    Except PyError (List (String × List NewsRecord)) :=
  let dfs0 := SHEET_NAMES.map (fun sn => (sn, ([] : List NewsRecord)))
  if repo = "" ∨ tag = "" then .ok dfs0
  else
    match w with
    | .releaseRequestRaises => .error .requestsError
    | .releaseJsonRaises => .error .jsonError
    | .downloadRequestRaises => .error .requestsError
    | .loaded book =>
        .ok (SHEET_NAMES.map (fun sn =>
          (sn, match book.lookup sn with
               | some raw => loadSheet raw
               | none => [])))
    | _ => .ok dfs0

/-! ## ClassificationOrchestrator (`classify_with_gemini`, src/main.py lines 372-460)

Per sheet the code selects `df_to_classify = df[(df["ポジネガ"] == "") |
(df["カテゴリ"] == "")]` (line 417; `False` on `NaN` cells), then
`reset_index(drop=True)` (line 427) *discards the original index*, so
`df_to_classify.index` is the plain range `0..n-1` and the write-back
expression `df_to_classify.index[idx]` (lines 451-452) is just `idx`
(raising `IndexError`, caught by the inner except, when `idx ≥ n`).
`df.loc[idx, col] = v` is therefore a *label-based* write into the
merged frame, whose labels are the gappy surviving concatenation
positions — generally a different row from the one whose title was sent
as payload row `idx` — and, when no row carries label `idx`, pandas
setting-with-enlargement appends a fresh row with that label whose other
cells are `NaN`. -/

/-- One successfully parsed object of the response array:
`int(obj.get("row"))` and the two label strings before `.strip()`.
(Objects for which the `int(...)` conversion raises are skipped by the
inner `except` and simply do not appear in this list; Python's negative
indexing is outside the protocol, row values being echoed payload
positions.) -/
structure GeminiItem where
  row : Nat
  sentiment : String
  category : String
deriving DecidableEq, Repr

/-- `batch_size = 40` (src/main.py line 429). -/
def batch_size : Nat := 40

/-- Selection predicate of src/main.py line 417:
`(df["ポジネガ"] == "") | (df["カテゴリ"] == "")`.  In pandas a `NaN`
cell compared to `""` is `False`, so only cells holding the actual empty
string select the row — a never-labelled archived row read back as `NaN`
is not re-selected. -/
def needsLabel (r : NewsRecord) : Bool :=
  r.sentiment == some "" || r.category == some ""

/-- `df_to_classify` after `reset_index(drop=True)` (src/main.py lines
417, 427): the selected rows in frame order, their original labels
discarded. -/
def subsetRecs (ldf : List (Nat × NewsRecord)) : List NewsRecord :=
  (ldf.filter (fun p => needsLabel p.2)).map (fun p => p.2)

/-- The pair of label-based assignments `df.loc[lbl, "ポジネガ"] = s;
df.loc[lbl, "カテゴリ"] = c` (src/main.py lines 451-452): every row
carrying label `lbl` gets both cells set; if no row does, pandas
setting-with-enlargement appends a row labelled `lbl` whose other cells
are `NaN` (folded fields become `""`, the URL cell `none`). -/
def locWrite (ldf : List (Nat × NewsRecord)) (lbl : Nat) (s c : String) :
    List (Nat × NewsRecord) :=
  if ldf.any (fun p => p.1 == lbl) then
    ldf.map (fun p =>
      if p.1 == lbl then
        (p.1, { p.2 with sentiment := some s, category := some c })
      else p)
  else
    ldf ++ [(lbl, { title := "", url := none, publishedAt := "", source := "",
                    fetchedAt := "", keyword := "",
                    sentiment := some s, category := some c, dedupTitle := "" })]

/-- Applying one parsed response object (src/main.py lines 444-452):
strip both labels; if both are non-empty, evaluate
`df_to_classify.index[row]` — the plain range index, so the value is
`row` itself when `row < n` (`n` the size of the to-classify subset) and
an `IndexError`, caught by the inner except, otherwise — and perform the
two label-based `df.loc` writes with it. -/
def applyItem (n : Nat) (ldf : List (Nat × NewsRecord)) (it : GeminiItem) :
    List (Nat × NewsRecord) :=
  if pyStrip it.sentiment ≠ "" ∧ pyStrip it.category ≠ "" then
    if it.row < n then
      locWrite ldf it.row (pyStrip it.sentiment) (pyStrip it.category)
    else ldf
  else ldf

/-- One batch call (src/main.py lines 434-456): `none` models the outer
`except` firing (API error, or `json.loads` failing on the extracted
text); otherwise each parsed object is applied in order. -/
def applyBatchResp (n : Nat) (ldf : List (Nat × NewsRecord))
    (resp : Option (List GeminiItem)) : List (Nat × NewsRecord) :=
  match resp with
  | none => ldf
  | some items => items.foldl (applyItem n) ldf

/-- The payload of the batch starting at subset position `start`
(src/main.py lines 431-432): pairs of reset-index position and title,
drawn from the frozen `df_to_classify` copy. -/
def batchPayload (ldf : List (Nat × NewsRecord)) (start : Nat) :
    List (Nat × String) :=
  (((subsetRecs ldf).enum.drop start).take batch_size).map
    (fun p => (p.1, p.2.title))

/-- Per-sheet classification loop (src/main.py lines 415-458): if nothing
needs a label the sheet is returned unchanged; otherwise one response per
batch of 40 is applied in order to the live frame (`df_to_classify` is a
frozen copy: its size bounds the valid rows for every batch); a missing
response entry behaves like a failed call. -/
def classifySheet (ldf : List (Nat × NewsRecord))
    (resps : List (Option (List GeminiItem))) : List (Nat × NewsRecord) :=
  if (subsetRecs ldf).length = 0 then ldf
  else
    (List.range (((subsetRecs ldf).length + batch_size - 1) / batch_size)).foldl
      (fun acc k => applyBatchResp (subsetRecs ldf).length acc (resps.getD k none))
      ldf

/-- `classify_with_gemini` (src/main.py lines 372-460): with a blank (or
whitespace) `GEMINI_API_KEY` or the `google.generativeai` import absent,
the whole phase returns its input unchanged; otherwise every sheet is
classified with that sheet's batch responses. -/
def classify_with_gemini (apiKey : String) (genaiPresent : Bool)
    (resps : String → List (Option (List GeminiItem)))
    (dfs : List (String × List (Nat × NewsRecord))) :
    List (String × List (Nat × NewsRecord)) :=
  if pyStrip apiKey = "" ∨ genaiPresent = false then dfs
  else dfs.map (fun p => (p.1, classifySheet p.2 (resps p.1)))

/-! ## Writer (`save_book_with_format`, src/main.py lines 298-369)

Only the data content is modelled: one sheet per keyword, the fixed
header row, then one row of nine cells per record
(`df.itertuples(index=False)` — labels are not written; a missing cell
is written as an empty cell).  Fonts, widths, the auto filter, the
frozen header and the 投稿日 date coercion are visual formatting,
excluded from the core by the spec (§1, §4.5). -/

/-- Cells of one written row, in the fixed column order. -/
def recordRow (r : NewsRecord) : List String :=
  [r.title, r.url.getD "", r.publishedAt, r.source, r.fetchedAt,
   r.keyword, r.sentiment.getD "", r.category.getD "", r.dedupTitle]

/-- The written artifact: per sheet, header row then data rows. -/
def writeArtifact (dfs : List (String × List (Nat × NewsRecord))) :
    List (String × List (List String)) :=
  dfs.map (fun p => (p.1, empty_cols :: p.2.map (fun q => recordRow q.2)))

/-- An empty label cell: missing (`NaN`) or the empty string. -/
def emptyLabelCell (x : Option String) : Prop :=
  x = none ∨ x = some ""

instance (x : Option String) : Decidable (emptyLabelCell x) := by
  unfold emptyLabelCell
  infer_instance

/-- Atomic labelling invariant (spec §3): sentiment and category are both
empty or both populated. -/
def labelAtomic (r : NewsRecord) : Prop :=
  (emptyLabelCell r.sentiment ∧ emptyLabelCell r.category) ∨
  (¬ emptyLabelCell r.sentiment ∧ ¬ emptyLabelCell r.category)

/-! ## Sample data

Concrete frames used to evaluate the classification write-back against
the claims: an archive of labelled rows with one fresh unlabeled row
(`c3Ldf`), and a 42-position frame whose dropped first row makes every
label exceed its subset position by one (`c9Ldf`). -/

/-- An already-labelled archived record. -/
def c3Arch (i : Nat) : NewsRecord :=
  { title := "A" ++ toString i, url := some ("ua" ++ toString i),
    publishedAt := "", source := "", fetchedAt := "", keyword := "",
    sentiment := some "ニュートラル", category := some "その他",
    dedupTitle := "" }

/-- A fresh unlabeled record titled "B". -/
def c3Fresh : NewsRecord :=
  { title := "B", url := some "ub", publishedAt := "", source := "",
    fetchedAt := "", keyword := "", sentiment := some "",
    category := some "", dedupTitle := "" }

/-- Merged frame: two labelled archive rows then the fresh row, labels
0, 1, 2. -/
def c3Ldf : List (Nat × NewsRecord) :=
  mergeLabeled [c3Arch 0, c3Arch 1] [c3Fresh]

/-- An unlabeled record for the two-batch scenario. -/
def c9Row (i : Nat) : NewsRecord :=
  { title := "t" ++ toString i, url := some ("u" ++ toString i),
    publishedAt := "", source := "", fetchedAt := "", keyword := "",
    sentiment := some "", category := some "", dedupTitle := "" }

/-- Archive of one row with a missing URL: dropped by `dropna`, it
shifts every surviving label one above its position. -/
def c9Old : List NewsRecord :=
  [{ c9Row 0 with url := none }]

/-- Forty-one fresh unlabeled rows: two batches (40 + 1). -/
def c9New : List NewsRecord :=
  (List.range 41).map (fun i => c9Row (i + 1))

/-- Merged frame: labels 1..41 for subset positions 0..40. -/
def c9Ldf : List (Nat × NewsRecord) :=
  mergeLabeled c9Old c9New

/-- Responses: batch 0 malformed, batch 1 well-formed, echoing its own
payload row 40. -/
def c9Resps : List (Option (List GeminiItem)) :=
  [none, some [⟨40, "ポジティブ", "会社"⟩]]

/-! ## Theorems -/

/-- `dedupSeeded` only consults the seed through membership. -/
theorem dedupSeeded_congr (l : List NewsRecord) :
    ∀ s₁ s₂ : List (Option String), (∀ u, u ∈ s₁ ↔ u ∈ s₂) →
      dedupSeeded s₁ l = dedupSeeded s₂ l := by
  induction l with
  | nil => intro s₁ s₂ _; rfl
  | cons r rs ih =>
    intro s₁ s₂ h
    simp only [dedupSeeded]
    by_cases hm : r.url ∈ s₁
    · rw [if_pos hm, if_pos ((h r.url).mp hm)]
      exact ih s₁ s₂ h
    · rw [if_neg hm, if_neg (fun hc => hm ((h r.url).mpr hc))]
      have h2 : ∀ u, u ∈ r.url :: s₁ ↔ u ∈ r.url :: s₂ := by
        intro u
        simp [h u]
      rw [ih _ _ h2]

/-- Elements surviving the first-occurrence dedup come from the input. -/
theorem mem_of_mem_dedupSeeded (l : List NewsRecord) :
    ∀ (s : List (Option String)) (r : NewsRecord), r ∈ dedupSeeded s l → r ∈ l := by
  induction l with
  | nil => intro s r h; exact absurd h (List.not_mem_nil r)
  | cons a tl ih =>
    intro s r h
    simp only [dedupSeeded] at h
    by_cases hm : a.url ∈ s
    · rw [if_pos hm] at h
      exact List.mem_cons_of_mem a (ih s r h)
    · rw [if_neg hm] at h
      rcases List.mem_cons.mp h with h1 | h2
      · exact h1 ▸ List.mem_cons_self a tl
      · exact List.mem_cons_of_mem a (ih _ r h2)

/-- URL values surviving the dedup: those of the input, minus the seed. -/
theorem mem_map_url_dedupSeeded (l : List NewsRecord) :
    ∀ (s : List (Option String)) (u : Option String),
      u ∈ (dedupSeeded s l).map (fun r => r.url) ↔
        u ∈ l.map (fun r => r.url) ∧ u ∉ s := by
  induction l with
  | nil => intro s u; simp [dedupSeeded]
  | cons r rs ih =>
    intro s u
    simp only [dedupSeeded]
    by_cases hm : r.url ∈ s
    · rw [if_pos hm]
      rw [ih s u]
      simp only [List.map_cons, List.mem_cons]
      constructor
      · rintro ⟨h1, h2⟩
        exact ⟨Or.inr h1, h2⟩
      · rintro ⟨h1 | h1, h2⟩
        · exact absurd (h1 ▸ hm) h2
        · exact ⟨h1, h2⟩
    · rw [if_neg hm]
      simp only [List.map_cons, List.mem_cons]
      rw [ih (r.url :: s) u]
      simp only [List.mem_cons]
      constructor
      · rintro (h1 | ⟨h1, h2⟩)
        · exact ⟨Or.inl h1, h1 ▸ hm⟩
        · exact ⟨Or.inr h1, fun hc => h2 (Or.inr hc)⟩
      · rintro ⟨h1 | h1, h2⟩
        · exact Or.inl h1
        · by_cases hu : u = r.url
          · exact Or.inl hu
          · exact Or.inr ⟨h1, fun hc => hc.elim hu h2⟩

/-- Splitting the first-occurrence dedup across a concatenation: the
second block is deduplicated against the seed plus every URL of the
first block. -/
theorem dedupSeeded_append (a b : List NewsRecord) :
    ∀ s : List (Option String),
      dedupSeeded s (a ++ b) =
        dedupSeeded s a ++ dedupSeeded (a.map (fun r => r.url) ++ s) b := by
  induction a with
  | nil => intro s; simp [dedupSeeded]
  | cons r a' ih =>
    intro s
    simp only [List.cons_append, dedupSeeded, List.map_cons, List.append_eq]
    by_cases hm : r.url ∈ s
    · rw [if_pos hm, if_pos hm, ih s]
      congr 1
      apply dedupSeeded_congr
      intro u
      simp only [List.cons_append, List.mem_cons, List.mem_append]
      constructor
      · tauto
      · rintro (rfl | h | h)
        · exact Or.inr hm
        · exact Or.inl h
        · exact Or.inr h
    · rw [if_neg hm, if_neg hm, ih (r.url :: s), List.cons_append]
      congr 2
      apply dedupSeeded_congr
      intro u
      simp only [List.cons_append, List.mem_cons, List.mem_append]
      tauto

/-- Claim C1: the per-keyword merge equals the spec's description — the
concatenation of `old` then `new`, records with a missing URL dropped,
deduplicated by URL keeping the first (historical) occurrence; the
historical block keeps its relative order and the records newly
introduced by `new` follow it in collection order, with no re-sorting. -/
theorem merge_matches_spec (old new : List NewsRecord) :
    mergeRecords old new = mergeSpec old new := by
  unfold mergeRecords mergeSpec mergeSpecNew mergeSpecHist
  rw [List.filter_append, dedupSeeded_append]
  congr 1
  apply dedupSeeded_congr
  intro u
  rw [List.append_nil, mem_map_url_dedupSeeded]
  simp

/-- Records surviving the dedup carry a URL outside the seed. -/
theorem url_not_seen_of_mem_dedupSeeded (l : List NewsRecord) :
    ∀ (s : List (Option String)) (r : NewsRecord),
      r ∈ dedupSeeded s l → r.url ∉ s := by
  induction l with
  | nil => intro s r h; exact absurd h (List.not_mem_nil r)
  | cons a tl ih =>
    intro s r h
    simp only [dedupSeeded] at h
    by_cases hm : a.url ∈ s
    · rw [if_pos hm] at h
      exact ih s r h
    · rw [if_neg hm] at h
      rcases List.mem_cons.mp h with h1 | h2
      · exact h1 ▸ hm
      · intro hc
        exact ih _ r h2 (List.mem_cons_of_mem _ hc)

/-- The first-occurrence dedup yields pairwise distinct URLs. -/
theorem dedupSeeded_pairwise_urls (l : List NewsRecord) :
    ∀ s : List (Option String),
      (dedupSeeded s l).Pairwise (fun a b => a.url ≠ b.url) := by
  induction l with
  | nil => intro s; simp [dedupSeeded]
  | cons a tl ih =>
    intro s
    simp only [dedupSeeded]
    by_cases hm : a.url ∈ s
    · rw [if_pos hm]
      exact ih s
    · rw [if_neg hm]
      refine List.Pairwise.cons ?_ (ih (a.url :: s))
      intro b hb hc
      exact url_not_seen_of_mem_dedupSeeded tl (a.url :: s) b hb
        (hc ▸ List.mem_cons_self a.url s)

/-- Claim C2: after the merge, no two records of a keyword's collection
share a URL. -/
theorem merge_url_unique (old new : List NewsRecord) :
    (mergeRecords old new).Pairwise (fun a b => a.url ≠ b.url) :=
  dedupSeeded_pairwise_urls _ []

/-- Elements surviving the labelled first-occurrence dedup come from the
input. -/
theorem mem_of_mem_dedupSeededL (l : List (Nat × NewsRecord)) :
    ∀ (s : List (Option String)) (p : Nat × NewsRecord),
      p ∈ dedupSeededL s l → p ∈ l := by
  induction l with
  | nil => intro s p h; exact absurd h (List.not_mem_nil p)
  | cons a tl ih =>
    intro s p h
    simp only [dedupSeededL] at h
    by_cases hm : a.2.url ∈ s
    · rw [if_pos hm] at h
      exact List.mem_cons_of_mem a (ih s p h)
    · rw [if_neg hm] at h
      rcases List.mem_cons.mp h with h1 | h2
      · exact h1 ▸ List.mem_cons_self a tl
      · exact List.mem_cons_of_mem a (ih _ p h2)

/-- A row of the labelled merged frame is a record of one of the inputs. -/
theorem snd_mem_of_mem_mergeLabeled (old new : List NewsRecord)
    (p : Nat × NewsRecord) (hp : p ∈ mergeLabeled old new) :
    p.2 ∈ old ++ new := by
  have h1 := mem_of_mem_dedupSeededL _ [] p hp
  have h2 := (List.mem_filter.mp h1).1
  have h3 : p.2 ∈ (old ++ new).enum.map Prod.snd := List.mem_map_of_mem _ h2
  rw [List.enum_map_snd] at h3
  exact h3

/-- The labelled dedup is the plain dedup on the underlying records. -/
theorem dedupSeededL_map_snd (l : List (Nat × NewsRecord)) :
    ∀ s : List (Option String),
      (dedupSeededL s l).map (fun p => p.2) =
        dedupSeeded s (l.map (fun p => p.2)) := by
  induction l with
  | nil => intro s; rfl
  | cons a tl ih =>
    intro s
    simp only [dedupSeededL, List.map_cons, dedupSeeded]
    by_cases hm : a.2.url ∈ s
    · rw [if_pos hm, if_pos hm]
      exact ih s
    · rw [if_neg hm, if_neg hm, List.map_cons, ih (a.2.url :: s)]

/-- Forgetting the frame labels of the labelled merge gives exactly the
record-level merge of C1/C2: the labelled model refines `mergeRecords`. -/
theorem mergeLabeled_map_snd (old new : List NewsRecord) :
    (mergeLabeled old new).map (fun p => p.2) = mergeRecords old new := by
  unfold mergeLabeled mergeRecords
  rw [dedupSeededL_map_snd]
  have aux : ∀ l : List (Nat × NewsRecord),
      (l.filter (fun p => p.2.url.isSome)).map (fun p => p.2) =
        (l.map (fun p => p.2)).filter (fun r => r.url.isSome) := by
    intro l
    induction l with
    | nil => rfl
    | cons a tl ih =>
      cases ha : a.2.url.isSome with
      | true => simp [List.filter_cons, ha, ih]
      | false => simp [List.filter_cons, ha, ih]
  rw [aux, List.enum_map_snd]

/-- Claim C3: the claim says a parsed `{row, sentiment, category}` with
both labels non-empty is written back to the record at the batch-relative
position named by `row` — the record whose title was sent at that
position.  The code does not do that: after `reset_index(drop=True)` the
write `df.loc[df_to_classify.index[idx], ...]` is a label-based write of
label `idx` into the gappy merged frame.  Here the frame holds two
already-labelled archive rows (labels 0 and 1) and one fresh unlabeled
row (label 2); the payload sends the fresh row's title "B" as row 0, but
the response item `{row: 0, ...}` overwrites the *archive* row labelled
0 and leaves the fresh row untouched. -/
theorem classify_writeback_targets_frame_label :
    classifySheet c3Ldf [some [⟨0, "ポジティブ", "会社"⟩]] =
      [(0, { c3Arch 0 with sentiment := some "ポジティブ",
                           category := some "会社" }),
       (1, c3Arch 1), (2, c3Fresh)] ∧
    batchPayload c3Ldf 0 = [(0, "B")] := by
  constructor
  · decide
  · decide

/-- Claim C9: the claim says that when a batch's response is malformed
every row of that batch keeps empty labels.  In the code a *well-formed*
other batch can relabel the malformed batch's rows, because its writes
are label-directed: here the archive row at concatenation position 0 has
a missing URL, so `dropna` shifts every surviving label one above its
subset position (labels 1..41 for positions 0..40).  Batch 0 (positions
0..39) gets `none`; batch 1 echoes its own payload row 40, but
`df.loc[40]` lands on the row labelled 40 — subset position 39, a row of
the malformed batch 0 — which ends up labelled, while the row batch 1
actually sent (label 41) stays unlabeled. -/
theorem classify_malformed_batch_rows_still_written :
    (classifySheet c9Ldf c9Resps)[39]? =
      some (40, { c9Row 40 with sentiment := some "ポジティブ",
                                category := some "会社" }) ∧
    (classifySheet c9Ldf c9Resps)[40]? = some (41, c9Row 41) ∧
    batchPayload c9Ldf 40 = [(40, "t41")] := by
  refine ⟨?_, ?_, ?_⟩
  · decide
  · decide
  · decide

/-- A populated (non-empty, non-missing) cell. -/
theorem not_emptyLabelCell_of_ne (s : String) (hs : s ≠ "") :
    ¬ emptyLabelCell (some s) := by
  intro h
  rcases h with h | h
  · exact Option.noConfusion h
  · exact hs (Option.some.inj h)

/-- The pair of `df.loc` writes preserves label atomicity: every touched
row — matched or appended by enlargement — gets both cells populated. -/
theorem labelAtomic_locWrite (ldf : List (Nat × NewsRecord)) (lbl : Nat)
    (s c : String) (hs : s ≠ "") (hc : c ≠ "")
    (h : ∀ p ∈ ldf, labelAtomic p.2) :
    ∀ p ∈ locWrite ldf lbl s c, labelAtomic p.2 := by
  intro p hp
  unfold locWrite at hp
  by_cases hex : ldf.any (fun q => q.1 == lbl) = true
  · rw [if_pos hex] at hp
    rcases List.mem_map.mp hp with ⟨q, hq, hfq⟩
    by_cases heq : (q.1 == lbl) = true
    · rw [if_pos heq] at hfq
      rw [← hfq]
      exact Or.inr ⟨not_emptyLabelCell_of_ne s hs, not_emptyLabelCell_of_ne c hc⟩
    · rw [if_neg heq] at hfq
      rw [← hfq]
      exact h q hq
  · rw [if_neg hex] at hp
    rcases List.mem_append.mp hp with h1 | h1
    · exact h p h1
    · rw [List.mem_singleton.mp h1]
      exact Or.inr ⟨not_emptyLabelCell_of_ne s hs, not_emptyLabelCell_of_ne c hc⟩

/-- Applying one parsed object preserves label atomicity: it writes both
stripped labels (both non-empty) somewhere, or nothing at all. -/
theorem labelAtomic_applyItem (n : Nat) (it : GeminiItem)
    (ldf : List (Nat × NewsRecord)) (h : ∀ p ∈ ldf, labelAtomic p.2) :
    ∀ p ∈ applyItem n ldf it, labelAtomic p.2 := by
  intro p hp
  unfold applyItem at hp
  by_cases hcond : pyStrip it.sentiment ≠ "" ∧ pyStrip it.category ≠ ""
  · rw [if_pos hcond] at hp
    by_cases hrow : it.row < n
    · rw [if_pos hrow] at hp
      exact labelAtomic_locWrite ldf it.row _ _ hcond.1 hcond.2 h p hp
    · rw [if_neg hrow] at hp
      exact h p hp
  · rw [if_neg hcond] at hp
    exact h p hp

/-- Folding a batch's parsed objects preserves label atomicity. -/
theorem labelAtomic_foldl_applyItem (n : Nat) :
    ∀ (items : List GeminiItem) (acc : List (Nat × NewsRecord)),
      (∀ p ∈ acc, labelAtomic p.2) →
      ∀ p ∈ items.foldl (applyItem n) acc, labelAtomic p.2 := by
  intro items
  induction items with
  | nil => intro acc h p hp; exact h p hp
  | cons it tl ih =>
    intro acc h p hp
    rw [List.foldl_cons] at hp
    exact ih (applyItem n acc it) (labelAtomic_applyItem n it acc h) p hp

/-- A whole batch response preserves label atomicity. -/
theorem labelAtomic_applyBatchResp (n : Nat)
    (resp : Option (List GeminiItem)) (acc : List (Nat × NewsRecord))
    (h : ∀ p ∈ acc, labelAtomic p.2) :
    ∀ p ∈ applyBatchResp n acc resp, labelAtomic p.2 := by
  cases resp with
  | none => exact h
  | some items => exact labelAtomic_foldl_applyItem n items acc h

/-- The per-sheet classification loop preserves label atomicity. -/
theorem labelAtomic_classifySheet (ldf : List (Nat × NewsRecord))
    (resps : List (Option (List GeminiItem)))
    (h : ∀ p ∈ ldf, labelAtomic p.2) :
    ∀ p ∈ classifySheet ldf resps, labelAtomic p.2 := by
  unfold classifySheet
  by_cases hempty : (subsetRecs ldf).length = 0
  · rw [if_pos hempty]; exact h
  · rw [if_neg hempty]
    have aux : ∀ (ks : List Nat) (acc : List (Nat × NewsRecord)),
        (∀ p ∈ acc, labelAtomic p.2) →
        ∀ p ∈ ks.foldl
            (fun acc k2 =>
              applyBatchResp (subsetRecs ldf).length acc (resps.getD k2 none))
            acc, labelAtomic p.2 := by
      intro ks
      induction ks with
      | nil => intro acc hacc p hp; exact hacc p hp
      | cons k2 ks2 ih =>
        intro acc hacc p hp
        rw [List.foldl_cons] at hp
        exact ih _
          (labelAtomic_applyBatchResp (subsetRecs ldf).length _ acc hacc) p hp
    exact aux _ ldf h

/-- Every scraped record starts with both label cells `""`. -/
theorem labelAtomic_scraped (items : List ScrapeItem) :
    ∀ r ∈ scrapeRecords items, labelAtomic r := by
  intro r hr
  rcases List.mem_map.mp hr with ⟨it, _, rfl⟩
  exact Or.inl ⟨Or.inr rfl, Or.inr rfl⟩

/-- The labelled merge only rearranges records of its two inputs. -/
theorem labelAtomic_mergeLabeled (old new : List NewsRecord)
    (hold : ∀ r ∈ old, labelAtomic r) (hnew : ∀ r ∈ new, labelAtomic r) :
    ∀ p ∈ mergeLabeled old new, labelAtomic p.2 := by
  intro p hp
  rcases List.mem_append.mp (snd_mem_of_mem_mergeLabeled old new p hp) with h | h
  · exact hold _ h
  · exact hnew _ h

/-- Claim C4: at the end of a run no record has exactly one of sentiment
and category populated: provided no archived record comes in with exactly
one populated, every row of a keyword's final (merged then enriched)
frame has the two label cells both empty (`NaN` or `""`) or both
populated, whatever the service answered and whether or not it was
configured.  This survives the label-directed write-back: wherever a
`df.loc` pair lands — an existing row or an enlargement row — it always
sets both cells to non-empty strings. -/
theorem run_labels_atomic (apiKey : String) (genaiPresent : Bool)
    (resps : String → List (Option (List GeminiItem))) (kw : String)
    (old : List NewsRecord) (items : List ScrapeItem)
    (hold : ∀ r ∈ old, labelAtomic r) :
    ∀ sn ldf, (sn, ldf) ∈ classify_with_gemini apiKey genaiPresent resps
        [(kw, mergeLabeled old (scrapeRecords items))] →
      ∀ p ∈ ldf, labelAtomic p.2 := by
  intro sn ldf hmem p hp
  have hmerged : ∀ q ∈ mergeLabeled old (scrapeRecords items), labelAtomic q.2 :=
    labelAtomic_mergeLabeled old _ hold (labelAtomic_scraped items)
  unfold classify_with_gemini at hmem
  by_cases hcfg : pyStrip apiKey = "" ∨ genaiPresent = false
  · rw [if_pos hcfg] at hmem
    have heq := List.mem_singleton.mp hmem
    have hdf : ldf = mergeLabeled old (scrapeRecords items) :=
      congrArg Prod.snd heq
    exact hmerged p (hdf ▸ hp)
  · rw [if_neg hcfg] at hmem
    simp only [List.map_cons, List.map_nil] at hmem
    have heq := List.mem_singleton.mp hmem
    have hdf : ldf = classifySheet (mergeLabeled old (scrapeRecords items))
        (resps kw) := congrArg Prod.snd heq
    exact labelAtomic_classifySheet _ _ hmerged p (hdf ▸ hp)

/-- Witness for C4: empty archive, one scraped record, unconfigured
service. -/
theorem run_labels_atomic_witness :
    labelAtomic (mkScrapedRecord ⟨"T", "u", "d", "", "f", "k"⟩) := by
  have hmem : ("日産", mergeLabeled []
      (scrapeRecords [⟨"T", "u", "d", "", "f", "k"⟩])) ∈
      classify_with_gemini "" true (fun _ => [])
        [("日産", mergeLabeled []
          (scrapeRecords [⟨"T", "u", "d", "", "f", "k"⟩]))] := by
    decide
  exact run_labels_atomic "" true (fun _ => []) "日産" []
    [⟨"T", "u", "d", "", "f", "k"⟩]
    (fun r hr => absurd hr (List.not_mem_nil r))
    "日産" _ hmem (0, mkScrapedRecord ⟨"T", "u", "d", "", "f", "k"⟩) (by decide)

/-- Claim C5: the title normalization is claimed pure, deterministic and
idempotent.  Idempotence fails on the code as written: on the plain ASCII
title `s/{}<>]` one pass removes only the `/`, producing `s{}<>]`, and a
second pass then matches the first regex alternative (`s` is in its
character class and `{}<>]` is its literal tail) and removes everything.
The function's own docstring says it removes whitespace and brackets,
which the doubled backslashes of the pattern prevent, so the code — not
the claim — is wrong. -/
theorem normalize_title_not_idempotent :
    normalize_title_for_dup "s/\x7b\x7d<>]" = "s\x7b\x7d<>]" ∧
    normalize_title_for_dup (normalize_title_for_dup "s/\x7b\x7d<>]") = "" ∧
    normalize_title_for_dup (normalize_title_for_dup "s/\x7b\x7d<>]") ≠
      normalize_title_for_dup "s/\x7b\x7d<>]" :=
  ⟨by decide, by decide, by decide⟩

/-- Claim C6: the normalized output is claimed free of whitespace,
quotation marks, slashes, punctuation and bracket/dash characters (with
【】 preserved).  On the code as written the whitespace, parenthesis,
quote, and hyphen removals never fire (the doubled backslashes of the
source pattern turned `\\s` into a literal backslash plus `s`, and the
half-width bracket class is closed early), so `a (b)` — and likewise a
quoted or hyphenated title — passes through unchanged, contradicting the
function's own docstring; the 【】-preservation half does hold. -/
theorem normalize_title_keeps_space_and_brackets :
    normalize_title_for_dup "a (b)" = "a (b)" ∧
    (normalize_title_for_dup "a (b)").data.contains ' ' = true ∧
    normalize_title_for_dup "\"a\" - b" = "\"a\" - b" ∧
    normalize_title_for_dup "【a】" = "【a】" :=
  ⟨by decide, by decide, by decide, by decide⟩

/-- Claim C7 counterexample: the fetch *can* raise to its caller.  The
`requests.get` calls at src/main.py lines 250 and 269 sit outside any
try/except, so a transport-level network failure during either HTTP
request propagates out of `download_existing_book` instead of producing
the all-empty mapping the claim promises (likewise `r.json()` on a
non-JSON body, line 255). -/
theorem download_network_failure_raises :
    download_existing_book "owner/repo" "news-latest"
        ArchiveWorld.releaseRequestRaises =
      Except.error PyError.requestsError ∧
    download_existing_book "owner/repo" "news-latest"
        ArchiveWorld.downloadRequestRaises =
      Except.error PyError.requestsError ∧
    download_existing_book "owner/repo" "news-latest"
        ArchiveWorld.releaseJsonRaises =
      Except.error PyError.jsonError := by
  refine ⟨?_, ?_, ?_⟩ <;> rfl

/-- Claim C7 as amended: for every *handled* failure mode — release
lookup returning non-200, asset not found, missing download url,
download returning non-200, malformed spreadsheet content — the fetch
returns, without raising, the mapping binding every sheet to the empty
collection, and the caller proceeds normally; only an uncaught
transport-level exception from either HTTP request (or a non-JSON
release body) propagates. -/
theorem download_handled_failure_yields_empty (repo tag : String)
    (w : ArchiveWorld)
    (h : w = ArchiveWorld.releaseFetchFailed ∨ w = ArchiveWorld.assetNotFound ∨
         w = ArchiveWorld.missingDownloadUrl ∨ w = ArchiveWorld.downloadFailed ∨
         w = ArchiveWorld.excelParseFailed) :
    download_existing_book repo tag w =
      Except.ok (SHEET_NAMES.map (fun sn => (sn, ([] : List NewsRecord)))) := by
  rcases h with rfl | rfl | rfl | rfl | rfl <;>
    (unfold download_existing_book; split <;> rfl)

/-- Witness for the amended C7 at a concrete parse failure. -/
theorem download_handled_failure_yields_empty_witness :
    download_existing_book "owner/repo" "news-latest"
        ArchiveWorld.excelParseFailed =
      Except.ok (SHEET_NAMES.map (fun sn => (sn, ([] : List NewsRecord)))) :=
  download_handled_failure_yields_empty "owner/repo" "news-latest" _
    (Or.inr (Or.inr (Or.inr (Or.inr rfl))))

/-- Claim C8: with the API key blank (after strip) or the client library
absent, the enrichment phase returns the per-keyword collections
unchanged — every unlabeled row keeps empty sentiment and category — and
the written artifact is exactly that of the unenriched collections. -/
theorem classify_unconfigured_noop (apiKey : String) (genaiPresent : Bool)
    (resps : String → List (Option (List GeminiItem)))
    (dfs : List (String × List (Nat × NewsRecord)))
    (h : pyStrip apiKey = "" ∨ genaiPresent = false) :
    classify_with_gemini apiKey genaiPresent resps dfs = dfs ∧
    writeArtifact (classify_with_gemini apiKey genaiPresent resps dfs) =
      writeArtifact dfs := by
  have hid : classify_with_gemini apiKey genaiPresent resps dfs = dfs := by
    unfold classify_with_gemini
    rw [if_pos h]
  exact ⟨hid, by rw [hid]⟩

/-- Witness for C8: a present but unconfigured service on a one-sheet book. -/
theorem classify_unconfigured_noop_witness :
    classify_with_gemini "" true (fun _ => []) [("ホンダ", [])] = [("ホンダ", [])] ∧
    writeArtifact (classify_with_gemini "" true (fun _ => []) [("ホンダ", [])]) =
      writeArtifact [("ホンダ", [])] :=
  classify_unconfigured_noop "" true (fun _ => []) [("ホンダ", [])] (Or.inl (by decide))

/-- A found column index is within the column list. -/
theorem firstIdx_lt_length (c : String) :
    ∀ (l : List String) (i : Nat), firstIdx c l = some i → i < l.length := by
  intro l
  induction l with
  | nil => intro i h; exact absurd h (by simp [firstIdx])
  | cons a tl ih =>
    intro i h
    simp only [firstIdx] at h
    by_cases ha : a = c
    · rw [if_pos ha] at h
      cases h
      simp
    · rw [if_neg ha] at h
      rcases Option.map_eq_some'.mp h with ⟨j, hj, hij⟩
      have := ih j hj
      simp only [List.length_cons]
      omega

/-- An absent column has no index. -/
theorem firstIdx_eq_none (c : String) :
    ∀ l : List String, c ∉ l → firstIdx c l = none := by
  intro l
  induction l with
  | nil => intro _; rfl
  | cons a tl ih =>
    intro h
    simp only [firstIdx]
    rw [if_neg (fun ha => h (by rw [← ha]; exact List.mem_cons_self a tl)),
      ih (fun hc => h (List.mem_cons_of_mem a hc))]
    rfl

/-- Looking a column up after appending one more column at the end. -/
theorem firstIdx_append_sing (c name : String) :
    ∀ l : List String,
      firstIdx c (l ++ [name]) =
        match firstIdx c l with
        | some i => some i
        | none => if name = c then some l.length else none := by
  intro l
  induction l with
  | nil =>
    simp only [List.nil_append, firstIdx, List.length_nil]
    by_cases h : name = c
    · rw [if_pos h, if_pos h]
    · rw [if_neg h, if_neg h]
      rfl
  | cons a tl ih =>
    simp only [List.cons_append, firstIdx, List.append_eq]
    by_cases ha : a = c
    · rw [if_pos ha, if_pos ha]
    · rw [if_neg ha, if_neg ha, ih]
      cases h : firstIdx c tl with
      | some i => simp
      | none =>
        simp only [List.length_cons]
        by_cases hn : name = c
        · rw [if_pos hn]
          simp [hn]
        · rw [if_neg hn]
          simp [hn]

/-- Appending a column whose name is not among the expected nine does not
change the re-indexed row. -/
theorem reindexRow_append_extra (cols : List String) (row : List (Option String))
    (name : String) (v : Option String)
    (hname : name ∉ empty_cols) (hlen : row.length = cols.length) :
    reindexRow (cols ++ [name]) (row ++ [v]) = reindexRow cols row := by
  unfold reindexRow
  apply List.map_congr_left
  intro c hc
  rw [firstIdx_append_sing]
  cases h : firstIdx c cols with
  | some i =>
    simp only
    have hi : i < row.length := hlen ▸ firstIdx_lt_length c cols i h
    rw [List.getElem?_append, if_pos hi]
  | none =>
    simp only
    rw [if_neg (fun he => hname (by rw [← he] at hc; exact hc))]

/-- `loadSheet` ignores a whole appended extra column. -/
theorem loadSheet_append_extra (raw : RawSheet) (name : String)
    (vals : List (Option String)) (hname : name ∉ empty_cols)
    (hwf : ∀ row ∈ raw.rows, row.length = raw.cols.length)
    (hlen : vals.length = raw.rows.length) :
    loadSheet (appendCol raw name vals) = loadSheet raw := by
  unfold loadSheet appendCol
  simp only [List.map_map]
  have aux : ∀ (rows : List (List (Option String))) (vs : List (Option String)),
      (∀ row ∈ rows, row.length = raw.cols.length) → vs.length = rows.length →
      (rows.zip vs).map
          ((fun row => recordOfCells (reindexRow (raw.cols ++ [name]) row)) ∘
            (fun p => p.1 ++ [p.2])) =
        rows.map (fun row => recordOfCells (reindexRow raw.cols row)) := by
    intro rows
    induction rows with
    | nil => intro vs _ _; simp
    | cons row rows2 ih =>
      intro vs hwf2 hlen2
      cases vs with
      | nil => simp at hlen2
      | cons v vs2 =>
        simp only [List.zip_cons_cons, List.map_cons, Function.comp]
        congr 1
        · rw [reindexRow_append_extra raw.cols row name v hname
            (hwf2 row (List.mem_cons_self row rows2))]
        · exact ih vs2 (fun r hr => hwf2 r (List.mem_cons_of_mem row hr))
            (by simpa using hlen2)
  exact aux raw.rows vals hwf hlen

/-- Claim C10: a successfully retrieved sheet is loaded with exactly the
nine expected columns in their fixed order — the re-indexed row always
has length nine, an expected column missing from the persisted layout
reads as the empty value in its fixed position, and an extra column of an
older layout is silently dropped, leaving the loaded collection
unchanged.  (`loadSheet` is what the success path of
`download_existing_book` applies to every sheet found in the book.) -/
theorem archive_sheet_schema (raw : RawSheet) (row : List (Option String))
    (name : String) (vals : List (Option String)) :
    (reindexRow raw.cols row).length = 9 ∧
    (∀ (j : Nat) (c : String), empty_cols[j]? = some c → c ∉ raw.cols →
      (reindexRow raw.cols row)[j]? = some (some "")) ∧
    (name ∉ empty_cols →
      (∀ r ∈ raw.rows, r.length = raw.cols.length) →
      vals.length = raw.rows.length →
      loadSheet (appendCol raw name vals) = loadSheet raw) := by
  refine ⟨?_, ?_, ?_⟩
  · rw [reindexRow, List.length_map]
    rfl
  · intro j c hj hc
    rw [reindexRow, List.getElem?_map _ empty_cols j, hj, Option.map_some',
      firstIdx_eq_none c raw.cols hc]
  · intro h1 h2 h3
    exact loadSheet_append_extra raw name vals h1 h2 h3

/-- Witness for C10: a one-column sheet, one extra column appended. -/
theorem archive_sheet_schema_witness :
    (reindexRow ["タイトル"] [some "t"]).length = 9 ∧
    (reindexRow ["タイトル"] [some "t"])[1]? = some (some "") ∧
    loadSheet (appendCol ⟨["タイトル"], [[some "t"]]⟩ "extra" [some "x"]) =
      loadSheet ⟨["タイトル"], [[some "t"]]⟩ := by
  have h := archive_sheet_schema ⟨["タイトル"], [[some "t"]]⟩ [some "t"]
    "extra" [some "x"]
  exact ⟨h.1, h.2.1 1 "URL" (by decide) (by decide),
    h.2.2 (by decide) (by decide) (by decide)⟩

end NewsPipeline
